import Mathlib

/-!
Verification development for the greenhouse PLC control repository
(`control.py`, `plc.py`, `test.py`).

Python strings are modelled as `List Char` (Python `str` is a sequence of
code points; slicing `s[:n]` is `List.take n`, `s[a:b]` is
`(List.drop a).take (b - a)`, `len` is `List.length`).  IEEE-754 float
values read from the controller are modelled abstractly as rationals
supplied by an oracle, since no claim depends on float arithmetic.
Machine bytes are `Nat` with explicit bit operations.
-/

namespace Greenhouse

/-! ### Transliteration (`util` in control.py) -/

/-- One character substitution: the effect of Python `str.replace(old, new)`
restricted to a single-character pattern, on one character. -/
def subst1 (old new : Char) (c : Char) : Char := if c = old then new else c

/-- Python `text.replace(old, new)` for a single-character `old` and `new`
replaces every occurrence of the character, i.e. maps `subst1` over the text. -/
def pyReplaceChar (old new : Char) (text : List Char) : List Char :=
  text.map (subst1 old new)

/-- The replacement table of `util` in control.py, in dictionary insertion
order (Python dicts iterate in insertion order). -/
def replacements : List (Char × Char) :=
  [('ç', 'c'), ('Ç', 'C'),
   ('ğ', 'g'), ('Ğ', 'G'),
   ('ı', 'i'), ('İ', 'I'),
   ('ö', 'o'), ('Ö', 'O'),
   ('ş', 's'), ('Ş', 'S'),
   ('ü', 'u'), ('Ü', 'U')]

/-- The `for old, new in replacements.items(): text = text.replace(old, new)`
loop of `util`, over an arbitrary replacement table. -/
def applyReplacements (ps : List (Char × Char)) (t : List Char) : List Char :=
  ps.foldl (fun acc p => pyReplaceChar p.1 p.2 acc) t

/-- Function `util` of control.py: sequentially apply the twelve
Turkish-to-ASCII character replacements. -/
def util (text : List Char) : List Char := applyReplacements replacements text

theorem pyReplaceChar_take (old new : Char) (t : List Char) (n : Nat) :
    pyReplaceChar old new (t.take n) = (pyReplaceChar old new t).take n := by
  simp [pyReplaceChar]

theorem pyReplaceChar_drop (old new : Char) (t : List Char) (n : Nat) :
    pyReplaceChar old new (t.drop n) = (pyReplaceChar old new t).drop n := by
  simp [pyReplaceChar]

theorem applyReplacements_take (ps : List (Char × Char)) (t : List Char) (n : Nat) :
    applyReplacements ps (t.take n) = (applyReplacements ps t).take n := by
  induction ps generalizing t with
  | nil => rfl
  | cons p ps ih =>
    simp only [applyReplacements, List.foldl_cons] at *
    rw [pyReplaceChar_take, ih]

theorem applyReplacements_drop (ps : List (Char × Char)) (t : List Char) (n : Nat) :
    applyReplacements ps (t.drop n) = (applyReplacements ps t).drop n := by
  induction ps generalizing t with
  | nil => rfl
  | cons p ps ih =>
    simp only [applyReplacements, List.foldl_cons] at *
    rw [pyReplaceChar_drop, ih]

theorem util_take (t : List Char) (n : Nat) :
    util (t.take n) = (util t).take n :=
  applyReplacements_take replacements t n

theorem util_drop (t : List Char) (n : Nat) :
    util (t.drop n) = (util t).drop n :=
  applyReplacements_drop replacements t n

/-! ### Display text computed by the monitoring loop

The monitoring loop writes `util(analysis_result["analiz"][:100])` to block 1,
`util(... [100:200])` to block 2, `util(... [200:250])` to block 3, and
`f"{m}.UYARI: {util(alert[:100])}"` to the alert blocks. -/

/-- Text written to display block 1: `util(analiz[:100])`. -/
def summaryChunk1 (analiz : List Char) : List Char := util (analiz.take 100)

/-- Text written to display block 2: `util(analiz[100:200])`. -/
def summaryChunk2 (analiz : List Char) : List Char := util ((analiz.drop 100).take 100)

/-- Text written to display block 3: `util(analiz[200:250])`. -/
def summaryChunk3 (analiz : List Char) : List Char := util ((analiz.drop 200).take 50)

/-- The literal ordinal label of the m-th alert write in the monitoring loop. -/
def ordinalLabel : Nat → List Char
  | 1 => "1.UYARI: ".toList
  | 2 => "2.UYARI: ".toList
  | 3 => "3.UYARI: ".toList
  | 4 => "4.UYARI: ".toList
  | 5 => "5.UYARI: ".toList
  | _ => []

/-- Text written for the m-th alert: `f"{m}.UYARI: {util(alert[:100])}"`. -/
def alertText (m : Nat) (alert : List Char) : List Char :=
  ordinalLabel m ++ util (alert.take 100)

/-- C3: transliteration maps each special character to its ASCII counterpart
(`util "Sıcaklık" = "Sicaklik"`), and every display text computed by the
monitoring loop equals the text obtained by applying transliteration to the
summary or alert BEFORE truncating it to the fixed chunk size: `util`
substitutes characters one for one, so it commutes with the slicing the code
performs, and the written content is exactly transliterate-then-truncate. -/
theorem transliteration_before_truncation :
    util "Sıcaklık".toList = "Sicaklik".toList ∧
    (∀ analiz : List Char,
      summaryChunk1 analiz = (util analiz).take 100 ∧
      summaryChunk2 analiz = ((util analiz).drop 100).take 100 ∧
      summaryChunk3 analiz = ((util analiz).drop 200).take 50) ∧
    (∀ (m : Nat) (alert : List Char),
      alertText m alert = ordinalLabel m ++ (util alert).take 100) := by
  refine ⟨by decide, fun a => ⟨?_, ?_, ?_⟩, fun m al => ?_⟩
  · exact util_take a 100
  · rw [summaryChunk2, util_take, util_drop]
  · rw [summaryChunk3, util_take, util_drop]
  · rw [alertText, util_take]

/-! ### The text-block encoder (`PLCConnection.write_db_string`) -/

/-- Python `data.encode("ascii", "ignore")`: characters with code point below
128 become single bytes, every other character is dropped. -/
def asciiIgnore (data : List Char) : List Nat :=
  (data.filter (fun c => c.toNat < 128)).map Char.toNat

/-- One iteration of the copy loop in `write_db_string`:
`if i < len(data_bytes): buffer[i + 2] = data_bytes[i]`. -/
def copyStep (data_bytes : List Nat) (buf : List Nat) (i : Nat) : List Nat :=
  if i < data_bytes.length then buf.set (i + 2) (data_bytes.getD i 0) else buf

/-- Buffer construction of `PLCConnection.write_db_string`:
`buffer = bytearray(max_size + 2); buffer[0] = max_size;
buffer[1] = min(len(data), max_size); copy loop`.  The assignment
`buffer[0] = max_size` raises `ValueError` when `max_size` exceeds 255; the
surrounding `except` then makes the function return `False` and no buffer is
ever built, modelled here as `none`. -/
def write_db_string_buffer (data : List Char) (max_size : Nat) : Option (List Nat) :=
  if 255 < max_size then none
  else
    let buffer := List.replicate (max_size + 2) 0
    let buffer := buffer.set 0 max_size
    let actual_length := min data.length max_size
    let buffer := buffer.set 1 actual_length
    let data_bytes := asciiIgnore data
    some ((List.range actual_length).foldl (copyStep data_bytes) buffer)

theorem copyStep_length (data_bytes buf : List Nat) (i : Nat) :
    (copyStep data_bytes buf i).length = buf.length := by
  unfold copyStep; split <;> simp

theorem foldl_copyStep_length (data_bytes : List Nat) (is : List Nat) (buf : List Nat) :
    (is.foldl (copyStep data_bytes) buf).length = buf.length := by
  induction is generalizing buf with
  | nil => rfl
  | cons i is ih => simp [List.foldl_cons, ih, copyStep_length]

theorem foldl_copyStep_getElem? (data_bytes : List Nat) (is : List Nat) (buf : List Nat)
    (j : Nat) (h : ∀ i ∈ is, i < data_bytes.length → i + 2 ≠ j) :
    (is.foldl (copyStep data_bytes) buf)[j]? = buf[j]? := by
  induction is generalizing buf with
  | nil => rfl
  | cons i is ih =>
    simp only [List.foldl_cons]
    rw [ih _ (fun k hk => h k (List.mem_cons_of_mem i hk))]
    unfold copyStep
    split
    · exact List.getElem?_set_ne (h i (List.mem_cons_self i is) (by assumption))
    · rfl

/-- C2 (amended): for `max_size` up to 255 the constructed buffer has exactly
`max_size + 2` bytes, byte 0 is `max_size` itself (no clamping), and byte 1 is
`min` of the CHARACTER count of the text and `max_size`; for `max_size`
above 255 the construction fails and no buffer is produced. -/
theorem write_db_string_header (data : List Char) (max_size : Nat) :
    (max_size ≤ 255 →
      (write_db_string_buffer data max_size).map List.length = some (max_size + 2) ∧
      (write_db_string_buffer data max_size).bind (fun b => b[0]?) = some max_size ∧
      (write_db_string_buffer data max_size).bind (fun b => b[1]?) =
        some (min data.length max_size)) ∧
    (255 < max_size → write_db_string_buffer data max_size = none) := by
  constructor
  · intro h
    rw [write_db_string_buffer, if_neg (Nat.not_lt.mpr h)]
    simp only [Option.map_some', Option.some_bind, Option.bind]
    refine ⟨?_, ?_, ?_⟩
    · rw [foldl_copyStep_length]
      simp
    · rw [foldl_copyStep_getElem? _ _ _ 0 (fun i _ _ => by omega)]
      rw [List.getElem?_set_ne (by omega), List.getElem?_set_self (by simp)]
    · rw [foldl_copyStep_getElem? _ _ _ 1 (fun i _ _ => by omega)]
      rw [List.getElem?_set_self (by simp)]
  · intro h
    rw [write_db_string_buffer, if_pos h]

/-- Witness for C2 (amended): the sample of spec section 8,
`encodeTextBlock("HELLO", 100)`, and one oversized capacity. -/
theorem write_db_string_header_witness :
    ((write_db_string_buffer "HELLO".toList 100).map List.length = some 102 ∧
     (write_db_string_buffer "HELLO".toList 100).bind (fun b => b[0]?) = some 100 ∧
     (write_db_string_buffer "HELLO".toList 100).bind (fun b => b[1]?) = some 5) ∧
    write_db_string_buffer "x".toList 256 = none := by
  have h := (write_db_string_header "HELLO".toList 100).1 (by decide)
  exact ⟨⟨h.1, h.2.1, h.2.2⟩, (write_db_string_header "x".toList 256).2 (by decide)⟩

set_option maxRecDepth 4000 in
/-- C2 as stated is false: for the one-character text `"ç"` (code point 231,
dropped by the ascii-ignore encoding) at the default capacity 230, byte 1 of
the buffer is 1, the CHARACTER count, while the length of the text as encoded
bytes is 0; and for capacity 300 no buffer of length 302 is built at all
because `buffer[0] = max_size` raises instead of clamping to 255. -/
theorem write_db_string_byte1_counterexample :
    (write_db_string_buffer "ç".toList 230).bind (fun b => b[1]?) = some 1 ∧
    (asciiIgnore "ç".toList).length = 0 ∧ (1 : Nat) ≠ 0 ∧
    write_db_string_buffer "x".toList 300 = none := by
  refine ⟨by decide, by decide, by decide, by decide⟩

/-- C10: every byte of the buffer beyond the copied text data, that is from
position `2 + min(actual_length, len(data_bytes))` up to `max_size + 1`, is
zero, because the bytearray is freshly zero-initialized and the copy loop
never writes there. -/
theorem write_db_string_zero_fill (data : List Char) (max_size j : Nat)
    (hcap : max_size ≤ 255)
    (hlo : 2 + min (min data.length max_size) (asciiIgnore data).length ≤ j)
    (hhi : j < max_size + 2) :
    (write_db_string_buffer data max_size).bind (fun b => b[j]?) = some 0 := by
  rw [write_db_string_buffer, if_neg (Nat.not_lt.mpr hcap)]
  simp only [Option.some_bind, Option.bind]
  rw [foldl_copyStep_getElem?]
  · rw [List.getElem?_set_ne (by omega), List.getElem?_set_ne (by omega),
      List.getElem?_replicate_of_lt hhi]
  · intro i hi hlen
    rw [List.mem_range] at hi
    have : i < min (min data.length max_size) (asciiIgnore data).length := by
      omega
    omega

/-- Witness for C10: in `encodeTextBlock("HELLO", 100)` position 7, the first
position after the copied text, holds a zero byte. -/
theorem write_db_string_zero_fill_witness :
    (write_db_string_buffer "HELLO".toList 100).bind (fun b => b[7]?) = some 0 :=
  write_db_string_zero_fill "HELLO".toList 100 7 (by decide) (by decide) (by decide)

/-! ### PLC connection state (`PLCConnection`)

Transport outcomes are oracles in the state: `connectWorks` says whether a
`connect()` attempt succeeds, `readFailsMK a`, `readFailsPA b` and
`writeFailsPA b` say whether the corresponding `read_area` or `write_area`
call raises.  The big-endian IEEE-754 decode of a successfully read 4-byte
slice is abstracted into the oracle `mkArea`, which directly gives the
decoded value as a rational; `pa` holds the bytes of the output process
image. -/

structure PlcState where
  connected : Bool
  connectWorks : Bool
  mkArea : Nat → ℚ
  readFailsMK : Nat → Bool
  pa : Nat → Nat
  readFailsPA : Nat → Bool
  writeFailsPA : Nat → Bool

/-- The reconnect guard that opens `read_md_float`, `write_bool` and
`write_db_string`: if the client is absent or disconnected, call `connect()`
once; `connect()` leaves the client connected when it succeeds and `None`
when it fails. -/
def ensure_connected (st : PlcState) : PlcState :=
  if st.connected then st else { st with connected := st.connectWorks }

theorem ensure_connected_pa (st : PlcState) : (ensure_connected st).pa = st.pa := by
  unfold ensure_connected; split <;> rfl

theorem ensure_connected_mkArea (st : PlcState) :
    (ensure_connected st).mkArea = st.mkArea := by
  unfold ensure_connected; split <;> rfl

theorem ensure_connected_readFailsMK (st : PlcState) :
    (ensure_connected st).readFailsMK = st.readFailsMK := by
  unfold ensure_connected; split <;> rfl

theorem ensure_connected_readFailsPA (st : PlcState) :
    (ensure_connected st).readFailsPA = st.readFailsPA := by
  unfold ensure_connected; split <;> rfl

theorem ensure_connected_writeFailsPA (st : PlcState) :
    (ensure_connected st).writeFailsPA = st.writeFailsPA := by
  unfold ensure_connected; split <;> rfl

theorem ensure_connected_connected (st : PlcState) :
    (ensure_connected st).connected = (st.connected || st.connectWorks) := by
  unfold ensure_connected
  by_cases h : st.connected <;> simp [h]

theorem ensure_connected_connectWorks (st : PlcState) :
    (ensure_connected st).connectWorks = st.connectWorks := by
  unfold ensure_connected; split <;> rfl

theorem ensure_connected_idem (st : PlcState) :
    ensure_connected (ensure_connected st) = ensure_connected st := by
  by_cases h : st.connected <;> by_cases hw : st.connectWorks <;>
    simp [ensure_connected, h, hw]

/-- Availability of the connection after the single reconnect attempt that
every operation performs. -/
def connectionAvailable (st : PlcState) : Bool := st.connected || st.connectWorks

theorem connectionAvailable_ensure (st : PlcState) :
    connectionAvailable (ensure_connected st) = connectionAvailable st := by
  unfold connectionAvailable
  rw [ensure_connected_connected, ensure_connected_connectWorks]
  cases st.connected <;> simp

/-- `PLCConnection.read_md_float`: reconnect guard, 4-byte `read_area` from
the analog-memory area, big-endian float decode; the not-connected fast path
and any raised transport error both yield the sentinel 0.0. -/
def read_md_float (st : PlcState) (md_address : Nat) : PlcState × ℚ :=
  let st1 := ensure_connected st
  if st1.connected = false then (st1, 0)
  else if st1.readFailsMK md_address then (st1, 0)
  else (st1, st1.mkArea md_address)

/-- Value a single sensor read yields: the decoded float when the connection
is available and the transport read succeeds, the sentinel 0.0 otherwise. -/
def sensorValue (st : PlcState) (a : Nat) : ℚ :=
  if connectionAvailable st = true ∧ st.readFailsMK a = false then st.mkArea a else 0

theorem read_md_float_eq (st : PlcState) (a : Nat) :
    read_md_float st a = (ensure_connected st, sensorValue st a) := by
  simp only [read_md_float, sensorValue]
  rw [ensure_connected_connected, ensure_connected_readFailsMK,
    ensure_connected_mkArea]
  unfold connectionAvailable
  cases hc : (st.connected || st.connectWorks) <;> cases hr : st.readFailsMK a <;>
    simp [hc, hr]

theorem sensorValue_ensure (st : PlcState) (a : Nat) :
    sensorValue (ensure_connected st) a = sensorValue st a := by
  unfold sensorValue
  rw [ensure_connected_mkArea, ensure_connected_readFailsMK,
    connectionAvailable_ensure]

/-- `PLCConnection.read_all_sensor_data`: five sequential `read_md_float`
calls at word offsets 0, 2, 4, 6, 8, assembled into the fixed-name snapshot.
Nothing in the body can raise (each read catches its own failures), so the
`except` branch that would return an empty dictionary is never taken. -/
def read_all_sensor_data (st : PlcState) : PlcState × List (String × ℚ) :=
  let r1 := read_md_float st 0
  let r2 := read_md_float r1.1 2
  let r3 := read_md_float r2.1 4
  let r4 := read_md_float r3.1 6
  let r5 := read_md_float r4.1 8
  (r5.1, [("Isik", r1.2), ("CO2", r2.2), ("ToprakNemi", r3.2),
          ("Nem", r4.2), ("Sicaklik", r5.2)])

theorem read_all_sensor_data_eq (st : PlcState) :
    (read_all_sensor_data st).2 =
      [("Isik", sensorValue st 0), ("CO2", sensorValue st 2),
       ("ToprakNemi", sensorValue st 4), ("Nem", sensorValue st 6),
       ("Sicaklik", sensorValue st 8)] := by
  unfold read_all_sensor_data
  simp only [read_md_float_eq, ensure_connected_idem, sensorValue_ensure]

/-- C4: the snapshot always carries exactly the five fixed sensor keys, in
order, and each field holds the decoded value when its read succeeded and the
sentinel 0.0 when its read failed (transport error, or not connected after
the single reconnect attempt); no failed read makes a key absent or aborts
the snapshot. -/
theorem read_all_sensor_data_total (st : PlcState) :
    ((read_all_sensor_data st).2.map Prod.fst =
      ["Isik", "CO2", "ToprakNemi", "Nem", "Sicaklik"]) ∧
    (read_all_sensor_data st).2 =
      [("Isik", sensorValue st 0), ("CO2", sensorValue st 2),
       ("ToprakNemi", sensorValue st 4), ("Nem", sensorValue st 6),
       ("Sicaklik", sensorValue st 8)] ∧
    (∀ a : Nat, ¬(connectionAvailable st = true ∧ st.readFailsMK a = false) →
      sensorValue st a = 0) := by
  refine ⟨?_, read_all_sensor_data_eq st, ?_⟩
  · rw [read_all_sensor_data_eq]; rfl
  · intro a ha
    unfold sensorValue
    rw [if_neg ha]

/-- Witness for C4 at a concrete dead environment. -/
theorem read_all_sensor_data_total_witness :
    ((read_all_sensor_data
        { connected := false, connectWorks := false, mkArea := fun _ => 7,
          readFailsMK := fun _ => false, pa := fun _ => 0,
          readFailsPA := fun _ => false, writeFailsPA := fun _ => false }).2.map
        Prod.fst = ["Isik", "CO2", "ToprakNemi", "Nem", "Sicaklik"]) ∧
    sensorValue
        { connected := false, connectWorks := false, mkArea := fun _ => 7,
          readFailsMK := fun _ => false, pa := fun _ => 0,
          readFailsPA := fun _ => false, writeFailsPA := fun _ => false } 0 = 0 := by
  refine ⟨(read_all_sensor_data_total _).1, (read_all_sensor_data_total _).2.2 0 ?_⟩
  decide

/-- Early-abort guard of the monitoring loop: the cycle is abandoned for this
interval exactly when `if not sensor_data` fires, i.e. when the snapshot
dictionary is empty. -/
def cycleAborted (st : PlcState) : Bool := (read_all_sensor_data st).2.isEmpty

/-- Fully failing PLC environment: no session, reconnect attempts fail, every
transport call raises. -/
def deadPlc : PlcState :=
  { connected := false, connectWorks := false, mkArea := fun _ => 0,
    readFailsMK := fun _ => true, pa := fun _ => 0,
    readFailsPA := fun _ => true, writeFailsPA := fun _ => true }

/-- C5 is false as stated: with the snapshot mechanism entirely unavailable
(connection never established after a reconnect attempt) the snapshot still
has its five keys with sentinel zeros, the `if not sensor_data` guard does
not fire, and the cycle is NOT aborted early — it proceeds to the advisor. -/
theorem cycle_abort_counterexample :
    connectionAvailable deadPlc = false ∧ cycleAborted deadPlc = false := by
  exact ⟨rfl, rfl⟩

/-- C5 (amended): the early-abort branch is unreachable. `read_all_sensor_data`
always returns a non-empty five-entry snapshot whatever the transport does,
so every cycle proceeds past the snapshot step to the advisor invocation,
including under degraded all-zero readings. -/
theorem cycle_never_aborted (st : PlcState) : cycleAborted st = false := by
  unfold cycleAborted
  rw [read_all_sensor_data_eq]
  rfl

/-! ### Output-bit writes (`PLCConnection.write_bool`) -/

/-- Python `s.startswith("Q")`: the first character is `Q`. -/
def pyStartsWithQ : List Char → Bool
  | [] => false
  | c :: _ => c == 'Q'

/-- Python `s.replace("%Q", "Q")`: left-to-right non-overlapping replacement
of the two-character pattern. -/
def pyReplacePercentQ : List Char → List Char
  | '%' :: 'Q' :: rest => 'Q' :: pyReplacePercentQ rest
  | c :: rest => c :: pyReplacePercentQ rest
  | [] => []

/-- Python `s.replace("Q", "")`: every `Q` is removed. -/
def pyRemoveQ (s : List Char) : List Char := s.filter (fun c => c != 'Q')

/-- Python `s.split(".")`: split on every dot, keeping empty pieces, with
`[""]` for the empty string. -/
def pySplitDot : List Char → List (List Char)
  | [] => [[]]
  | '.' :: rest => [] :: pySplitDot rest
  | c :: rest =>
    match pySplitDot rest with
    | [] => [[c]]
    | t :: ts => (c :: t) :: ts

/-- Python `int(s)` on the address pieces: a non-empty all-digit string gives
its decimal value, anything else raises `ValueError`, modelled as `none`. -/
def pyParseDigits (s : List Char) : Option Nat :=
  if s = [] then none
  else if s.all Char.isDigit then
    some (s.foldl (fun acc c => acc * 10 + (c.toNat - 48)) 0)
  else none

/-- Address parsing in `write_bool`: normalise a leading `"%Q"` to `"Q"` when
the string does not already start with `"Q"`, strip every `"Q"`, split on
`"."`, convert the first two parts with `int()`.  A missing or non-numeric
part raises, which the surrounding `except` turns into a `False` return,
modelled as `none`. -/
def parseOutputAddress (output_address : String) : Option (Nat × Nat) :=
  let s := output_address.toList
  let s := if pyStartsWithQ s then s else pyReplacePercentQ s
  let parts := pySplitDot (pyRemoveQ s)
  match parts[0]?, parts[1]? with
  | some p0, some p1 =>
    match pyParseDigits p0, pyParseDigits p1 with
    | some b, some i => some (b, i)
    | _, _ => none
  | _, _ => none

/-- Python bit arithmetic of `write_bool` on the read byte:
`mask = 1 << bit_offset`, then `byte | mask` when setting or `byte & ~mask`
when clearing.  Python integers are unbounded two-complement, modelled with
the Mathlib integer bitwise operations. -/
def pyModifyByte (b : Int) (bit_offset : Nat) (value : Bool) : Int :=
  let mask : Int := ((1 <<< bit_offset : Nat) : Int)
  if value then Int.lor b mask else Int.land b (Int.lnot mask)

theorem pyModifyByte_eq (b : Nat) (i : Nat) (v : Bool) :
    pyModifyByte b i v =
      ((if v then b ||| (1 <<< i) else Nat.ldiff b (1 <<< i) : Nat) : Int) := by
  cases v <;> rfl

/-- `PLCConnection.write_bool`: reconnect guard, address parse, one-byte
`read_area` from the output area, bit modify, `write_area` of the modified
byte.  Any failing step returns `False` with the output image unchanged. -/
def write_bool (st : PlcState) (output_address : String) (value : Bool) :
    PlcState × Bool :=
  let st1 := ensure_connected st
  if st1.connected = false then (st1, false)
  else
    match parseOutputAddress output_address with
    | none => (st1, false)
    | some (byte_offset, bit_offset) =>
      if st1.readFailsPA byte_offset then (st1, false)
      else if st1.writeFailsPA byte_offset then (st1, false)
      else
        ({ st1 with pa := fun b =>
            if b = byte_offset then
              (pyModifyByte (st1.pa byte_offset) bit_offset value).toNat
            else st1.pa b }, true)

/-- The byte value `write_bool` writes back, as a natural number. -/
def writtenByte (old : Nat) (bit_offset : Nat) (value : Bool) : Nat :=
  if value then old ||| (1 <<< bit_offset) else Nat.ldiff old (1 <<< bit_offset)

theorem pyModifyByte_toNat (b : Nat) (i : Nat) (v : Bool) :
    (pyModifyByte b i v).toNat = writtenByte b i v := by
  rw [pyModifyByte_eq, writtenByte]
  cases v <;> simp

theorem testBit_writtenByte_same (old : Nat) (i : Nat) (v : Bool) :
    (writtenByte old i v).testBit i = v := by
  unfold writtenByte
  cases v <;> simp [Nat.testBit_lor, Nat.testBit_ldiff, Nat.one_shiftLeft,
    Nat.testBit_two_pow_self]

theorem testBit_writtenByte_other (old : Nat) (i j : Nat) (hj : j ≠ i) (v : Bool) :
    (writtenByte old i v).testBit j = old.testBit j := by
  unfold writtenByte
  cases v <;> simp [Nat.testBit_lor, Nat.testBit_ldiff, Nat.one_shiftLeft,
    Nat.testBit_two_pow_of_ne (Ne.symm hj)]

/-- Characterisation of a successful `write_bool`: the output image changes
exactly at the addressed byte, which becomes the read-modify-write of the
byte previously there. -/
theorem write_bool_success (st : PlcState) (addr : String) (v : Bool) (bo bi : Nat)
    (hp : parseOutputAddress addr = some (bo, bi))
    (hsucc : (write_bool st addr v).2 = true) :
    (write_bool st addr v).1.pa = fun b =>
      if b = bo then writtenByte (st.pa bo) bi v else st.pa b := by
  simp only [write_bool, hp] at hsucc ⊢
  by_cases h1 : (ensure_connected st).connected = false
  · simp [h1] at hsucc
  · by_cases h2 : (ensure_connected st).readFailsPA bo
    · simp [h1, h2] at hsucc
    · by_cases h3 : (ensure_connected st).writeFailsPA bo
      · simp [h1, h2, h3] at hsucc
      · simp only [h1, h2, h3, if_false, ite_false, if_neg]
        simp [h1, h2, h3, ensure_connected_pa, pyModifyByte_toNat]

/-- C7: for every output address that parses as byte `bo`, bit `bi` with
`bi < 8`, a successful `write_bool` leaves every bit of the addressed output
byte other than `bi` exactly as it read it, and sets bit `bi` to the
requested value: the read-modify-write changes only the addressed bit. -/
theorem write_bool_frame (st : PlcState) (addr : String) (bo bi : Nat) (v : Bool)
    (_hbit : bi < 8)
    (hp : parseOutputAddress addr = some (bo, bi))
    (hsucc : (write_bool st addr v).2 = true) :
    (∀ j, j ≠ bi →
      ((write_bool st addr v).1.pa bo).testBit j = (st.pa bo).testBit j) ∧
    ((write_bool st addr v).1.pa bo).testBit bi = v := by
  rw [write_bool_success st addr v bo bi hp hsucc]
  constructor
  · intro j hj
    simp only [if_pos rfl]
    exact testBit_writtenByte_other (st.pa bo) bi j hj v
  · simp only [if_pos rfl]
    exact testBit_writtenByte_same (st.pa bo) bi v

/-- Healthy PLC environment: connected, every transport call succeeds, all
output bytes zero. -/
def livePlc : PlcState :=
  { connected := true, connectWorks := true, mkArea := fun _ => 0,
    readFailsMK := fun _ => false, pa := fun _ => 0,
    readFailsPA := fun _ => false, writeFailsPA := fun _ => false }

/-- Witness for C7: writing true to `Q0.4` on the all-zero healthy PLC. -/
theorem write_bool_frame_witness :
    (∀ j, j ≠ 4 →
      ((write_bool livePlc "Q0.4" true).1.pa 0).testBit j =
        (livePlc.pa 0).testBit j) ∧
    ((write_bool livePlc "Q0.4" true).1.pa 0).testBit 4 = true :=
  write_bool_frame livePlc "Q0.4" 0 4 true (by decide) (by decide) (by decide)

/-! ### Advisor recommendations and actuator dispatch -/

/-- One recommended action of the advisor JSON:
`{"ekipman": ..., "durum": ..., "neden": ...}`. -/
structure ActuatorCommand where
  ekipman : String
  durum : Bool
  neden : List Char

/-- The advisor JSON shape:
`{"analiz": ..., "eylemler": [...], "uyarılar": [...]}` (the field written
`uyarilar` here carries the dotless-i key of the source). -/
structure Recommendation where
  analiz : List Char
  eylemler : List ActuatorCommand
  uyarilar : List (List Char)

/-- `AIAgent.analyze_data`: the advisor transport, completion parsing and
JSON decoding are an external collaborator, modelled as an outcome that is
either a parsed recommendation or a raised exception with message `e`.  The
`except` branch substitutes the degraded recommendation of control.py lines
287-293. -/
def analyze_data (outcome : Except (List Char) Recommendation) : Recommendation :=
  match outcome with
  | Except.ok r => r
  | Except.error e =>
    { analiz := "Hata oluştu: ".toList ++ e,
      eylemler := [],
      uyarilar := ["AI analizi başarısız".toList] }

/-- The fixed equipment table of `SeraKontrolSistemi.__init__`. -/
def equipment_mapping : List (String × String) :=
  [("Havalandırma", "Q0.0"), ("Gölgelendirme", "Q0.1"),
   ("Isıtıcı", "Q0.2"), ("Nemlendirici", "Q0.3"),
   ("Sulama", "Q0.4"), ("Drenaj", "Q0.5"),
   ("CO2_Tupu", "Q0.6"), ("Led", "Q0.7")]

/-- Python `equipment_name in self.equipment_mapping` plus the subscript
lookup, as one association-list lookup. -/
def lookupEquipment (name : String) : Option String :=
  equipment_mapping.lookup name

/-- One iteration of the action loop of the monitoring cycle: resolve the
equipment name; when it resolves, apply `write_bool` (a failed write is only
logged); an unknown name is logged and skipped. -/
def execute_action (st : PlcState) (a : ActuatorCommand) : PlcState :=
  match lookupEquipment a.ekipman with
  | some output_address => (write_bool st output_address a.durum).1
  | none => st

/-- The action loop of the monitoring cycle, applying the advisor commands
strictly in list order. -/
def execute_actions (st : PlcState) (actions : List ActuatorCommand) : PlcState :=
  actions.foldl execute_action st

/-- C1 as stated is false: the degraded recommendation substituted when the
advisor call raises does NOT have an empty alert list — it carries the single
alert `"AI analizi başarısız"`. -/
theorem analyze_data_alerts_counterexample :
    (analyze_data (Except.error "baglanti zaman asimi".toList)).uyarilar ≠ [] := by
  decide

/-- C1 (amended): whatever the advisor failure, `analyze_data` returns a
degraded recommendation whose summary is the failure description
`"Hata oluştu: "` followed by the exception text, whose command list is
empty, and whose alert list is the single fixed alert
`"AI analizi başarısız"`; applying its (empty) command list changes no PLC
output, and the cycle continues with this value rather than aborting. -/
theorem analyze_data_degraded (e : List Char) (st : PlcState) :
    (analyze_data (Except.error e)).analiz = "Hata oluştu: ".toList ++ e ∧
    (analyze_data (Except.error e)).eylemler = [] ∧
    (analyze_data (Except.error e)).uyarilar = ["AI analizi başarısız".toList] ∧
    execute_actions st (analyze_data (Except.error e)).eylemler = st :=
  ⟨rfl, rfl, rfl, rfl⟩

/-- C9: commands are applied in list order, so for two successful commands of
the same cycle addressing the same equipment, the final observed state of the
addressed output bit is the `durum` of the LAST command. -/
theorem last_write_wins (st : PlcState) (e addrStr : String) (bo bi : Nat)
    (v1 v2 : Bool) (r1 r2 : List Char)
    (hmap : lookupEquipment e = some addrStr)
    (hp : parseOutputAddress addrStr = some (bo, bi))
    (_h1 : (write_bool st addrStr v1).2 = true)
    (h2 : (write_bool (write_bool st addrStr v1).1 addrStr v2).2 = true) :
    ((execute_actions st
        [⟨e, v1, r1⟩, ⟨e, v2, r2⟩]).pa bo).testBit bi = v2 := by
  have hexec : execute_actions st [⟨e, v1, r1⟩, ⟨e, v2, r2⟩] =
      (write_bool (write_bool st addrStr v1).1 addrStr v2).1 := by
    simp [execute_actions, execute_action, hmap]
  rw [hexec, write_bool_success _ addrStr v2 bo bi hp h2]
  simp only [if_pos rfl]
  exact testBit_writtenByte_same _ bi v2

/-- Witness for C9: the spec section 8 scenario — `Sulama` set true then
false on a healthy PLC; the final `Q0.4` bit is false. -/
theorem last_write_wins_witness :
    ((execute_actions livePlc
        [⟨"Sulama", true, "dry soil".toList⟩,
         ⟨"Sulama", false, "retracted".toList⟩]).pa 0).testBit 4 = false :=
  last_write_wins livePlc "Sulama" "Q0.4" 0 4 true false
    "dry soil".toList "retracted".toList (by decide) (by decide)
    (by decide) (by decide)

/-! ### Display-block writes of one monitoring cycle (C6)

The cycle writes the three summary chunks to blocks 1-3, clears blocks 4-8,
then walks the alert list with the counter `i`, writing the m-th alert to
block `3 + m` for `m` in 1..5; alerts past the fifth are only logged.  The
writes are modelled as a trace of (block, text) events applied to the
previous display contents. -/

/-- The alert `for` loop of the monitoring cycle, with counter value `i`
entering the iteration (the source increments `i` first, then compares it to
1..5). -/
def alertLoop (i : Nat) : List (List Char) → List (Nat × List Char)
  | [] => []
  | alert :: rest =>
    (if i + 1 = 1 then [(4, "1.UYARI: ".toList ++ util (alert.take 100))] else []) ++
    (if i + 1 = 2 then [(5, "2.UYARI: ".toList ++ util (alert.take 100))] else []) ++
    (if i + 1 = 3 then [(6, "3.UYARI: ".toList ++ util (alert.take 100))] else []) ++
    (if i + 1 = 4 then [(7, "4.UYARI: ".toList ++ util (alert.take 100))] else []) ++
    (if i + 1 = 5 then [(8, "5.UYARI: ".toList ++ util (alert.take 100))] else []) ++
    alertLoop (i + 1) rest

/-- All display writes of one cycle, in program order: summary chunks to
blocks 1, 2, 3, unconditional clears of blocks 4-8, then the alert loop. -/
def displayTrace (analiz : List Char) (alerts : List (List Char)) :
    List (Nat × List Char) :=
  [(1, summaryChunk1 analiz), (2, summaryChunk2 analiz), (3, summaryChunk3 analiz)]
    ++ (List.range 5).map (fun j => (4 + j, ([] : List Char)))
    ++ alertLoop 0 alerts

/-- Replay a write trace over previous display contents; each write replaces
the full content of its block. -/
def applyWrites (db : Nat → List Char) (trace : List (Nat × List Char)) :
    Nat → List Char :=
  trace.foldl (fun db e => fun b => if b = e.1 then e.2 else db b) db

theorem applyWrites_cons (db : Nat → List Char) (e : Nat × List Char)
    (t : List (Nat × List Char)) :
    applyWrites db (e :: t) =
      applyWrites (fun b => if b = e.1 then e.2 else db b) t := rfl

theorem applyWrites_append (db : Nat → List Char) (t1 t2 : List (Nat × List Char)) :
    applyWrites db (t1 ++ t2) = applyWrites (applyWrites db t1) t2 := by
  simp [applyWrites]

theorem applyWrites_not_mem (db : Nat → List Char) (trace : List (Nat × List Char))
    (b : Nat) (h : ∀ e ∈ trace, e.1 ≠ b) :
    applyWrites db trace b = db b := by
  induction trace generalizing db with
  | nil => rfl
  | cons e t ih =>
    rw [applyWrites_cons, ih _ (fun x hx => h x (List.mem_cons_of_mem e hx))]
    rw [if_neg (fun hb => h e (List.mem_cons_self e t) hb.symm)]

theorem alertLoop_of_ge (i : Nat) (alerts : List (List Char)) (h : 5 ≤ i) :
    alertLoop i alerts = [] := by
  induction alerts generalizing i with
  | nil => rfl
  | cons a rest ih =>
    unfold alertLoop
    rw [if_neg (by omega), if_neg (by omega), if_neg (by omega),
      if_neg (by omega), if_neg (by omega)]
    simp [ih (i + 1) (by omega)]

theorem alertLoop_cons_lt (i : Nat) (a : List Char) (rest : List (List Char))
    (h : i < 5) :
    alertLoop i (a :: rest) =
      (4 + i, ordinalLabel (i + 1) ++ util (a.take 100)) :: alertLoop (i + 1) rest := by
  interval_cases i <;> simp [alertLoop, ordinalLabel]

theorem alertLoop_block_range (alerts : List (List Char)) :
    ∀ (i : Nat), ∀ e ∈ alertLoop i alerts, 4 + i ≤ e.1 ∧ e.1 ≤ 8 := by
  induction alerts with
  | nil => intro i e he; simp [alertLoop] at he
  | cons a rest ih =>
    intro i e he
    by_cases h : i < 5
    · rw [alertLoop_cons_lt i a rest h] at he
      rcases List.mem_cons.mp he with h1 | h1
      · subst h1; simp; omega
      · have := ih (i + 1) e h1; omega
    · rw [alertLoop_of_ge i _ (by omega)] at he
      simp at he

theorem applyWrites_alertLoop (alerts : List (List Char)) (i k : Nat)
    (db : Nat → List Char) (hik : i ≤ k) (hk : k < 5) :
    applyWrites db (alertLoop i alerts) (4 + k) =
      match alerts[k - i]? with
      | some a => ordinalLabel (k + 1) ++ util (a.take 100)
      | none => db (4 + k) := by
  induction alerts generalizing i db with
  | nil => simp [alertLoop, applyWrites]
  | cons a rest ih =>
    rw [alertLoop_cons_lt i a rest (by omega), applyWrites_cons]
    by_cases hik2 : i = k
    · subst hik2
      rw [applyWrites_not_mem _ _ _
        (fun e he => by have := alertLoop_block_range rest (i + 1) e he; omega)]
      simp
    · have hlt : i + 1 ≤ k := by omega
      rw [ih (i + 1) _ hlt]
      have hki : k - i = (k - (i + 1)) + 1 := by omega
      rw [hki, List.getElem?_cons_succ]
      cases hrest : rest[k - (i + 1)]? with
      | some a2 => simp [hrest]
      | none =>
        simp only [hrest]
        rw [if_neg (by omega)]

theorem applyWrites_clears (db : Nat → List Char) (k : Nat) (hk : k < 5) :
    applyWrites db ((List.range 5).map (fun j => (4 + j, ([] : List Char)))) (4 + k)
      = [] := by
  interval_cases k <;> rfl

theorem displayTrace_blocks (analiz : List Char) (alerts : List (List Char)) :
    ∀ e ∈ displayTrace analiz alerts, 1 ≤ e.1 ∧ e.1 ≤ 8 := by
  intro e he
  simp only [displayTrace, List.append_assoc, List.mem_append, List.mem_cons,
    List.not_mem_nil, or_false, List.mem_map, List.mem_range] at he
  rcases he with (rfl | rfl | rfl) | ⟨j, hj, rfl⟩ | he
  · exact ⟨by omega, by omega⟩
  · exact ⟨by omega, by omega⟩
  · exact ⟨by omega, by omega⟩
  · exact ⟨by omega, by omega⟩
  · exact ⟨by have := (alertLoop_block_range alerts 0 e he).1; omega,
      (alertLoop_block_range alerts 0 e he).2⟩

/-- C6: whatever the previous display contents, after one cycle every alert
block `4 + k` (for `k < 5`) holds exactly the `(k+1)`-th alert, prefixed with
its ordinal label and with the alert text truncated to 100 characters before
transliteration, when such an alert exists, and is cleared to the empty text
otherwise; alerts past the fifth reach no block, and no block outside 1..8 is
ever written — so no stale alert of a previous cycle survives. -/
theorem alert_blocks (db : Nat → List Char) (analiz : List Char)
    (alerts : List (List Char)) (k b : Nat) (hk : k < 5) (hb : b = 0 ∨ 9 ≤ b) :
    applyWrites db (displayTrace analiz alerts) (4 + k) =
      (match alerts[k]? with
       | some a => ordinalLabel (k + 1) ++ util (a.take 100)
       | none => []) ∧
    applyWrites db (displayTrace analiz alerts) b = db b := by
  constructor
  · rw [displayTrace, applyWrites_append, applyWrites_append]
    rw [applyWrites_alertLoop alerts 0 k _ (by omega) hk]
    rw [Nat.sub_zero]
    cases halerts : alerts[k]? with
    | some a => simp [halerts]
    | none =>
      simp only [halerts]
      exact applyWrites_clears _ k hk
  · exact applyWrites_not_mem db _ b
      (fun e he => by have := displayTrace_blocks analiz alerts e he; omega)

/-- Witness for C6 at two alerts, checking block 5 and non-block 9. -/
theorem alert_blocks_witness :
    applyWrites (fun _ => "eski icerik".toList)
        (displayTrace [] ["a".toList, "b".toList]) (4 + 1) = "2.UYARI: b".toList ∧
    applyWrites (fun _ => "eski icerik".toList)
        (displayTrace [] ["a".toList, "b".toList]) 9 = "eski icerik".toList := by
  have h := alert_blocks (fun _ => "eski icerik".toList) []
    ["a".toList, "b".toList] 1 9 (by decide) (by right; decide)
  exact ⟨h.1, h.2⟩

/-! ### The monitoring loop as an event trace (C8) -/

/-- Externally observable events of `_monitoring_loop`: execution of one full
cycle body (`ok = false` when the body raised and the `except` branch caught
and logged it), a sleep of a number of seconds, and loop exit. -/
inductive LoopEvent where
  | cycle (ok : Bool)
  | sleep (secs : Nat)
  | exit
deriving DecidableEq

/-- The `while self.running:` loop of `_monitoring_loop`.  Each iteration
observes the shared `running` flag once, at the top of the loop (`stop()`
clears the flag from another thread, so the value seen at each check is an
oracle), together with the outcome of its cycle body.  A true flag runs one
full cycle followed by `time.sleep(monitoring_interval)` — the sleep sits at
the end of the `try` on success and in the `except` handler on failure, so it
happens either way; a false flag exits.  The observation list is the finite
horizon of the run. -/
def monitoring_loop (interval : Nat) : List (Bool × Bool) → List LoopEvent
  | [] => []
  | (flag, ok) :: rest =>
    if flag then
      LoopEvent.cycle ok :: LoopEvent.sleep interval :: monitoring_loop interval rest
    else [LoopEvent.exit]

/-- C8: closed form of the loop trace.  Every executed cycle — including one
whose body raised — is immediately followed by a sleep of the full monitoring
interval; the cycles executed are exactly those of the longest prefix of true
flag observations, so a cleared flag takes effect before the next cycle
starts and never interrupts a cycle in flight; and the exit event occurs
exactly when some flag check observed `stop()`, never after a mere cycle
failure. -/
theorem monitoring_loop_shape (interval : Nat) (obs : List (Bool × Bool)) :
    monitoring_loop interval obs =
      ((obs.takeWhile (fun io => io.1)).map
        (fun io => [LoopEvent.cycle io.2, LoopEvent.sleep interval])).flatten ++
      (if obs.dropWhile (fun io => io.1) = [] then [] else [LoopEvent.exit]) := by
  induction obs with
  | nil => rfl
  | cons io rest ih =>
    obtain ⟨flag, ok⟩ := io
    cases flag
    · simp [monitoring_loop, List.takeWhile_cons, List.dropWhile_cons]
    · simp [monitoring_loop, List.takeWhile_cons, List.dropWhile_cons, ih]

end Greenhouse
